import Mathlib

/-
Shallow embedding of the bare-minimum-server repository (src/index.js):
a JSON-file-backed table store (class LocalFileDatabase) and a tiny HTTP
router/dispatcher over it.  Rows are JavaScript objects, modelled as
insertion-ordered association lists of string keys and JSON-compatible
values; the database is an insertion-ordered association list of table
names to row arrays.  File I/O (the db.json snapshot) is abstracted
away: the code calls #persist() on exactly the paths where the embedded
operations report `persisted := true`.
-/

/-- JSON-compatible values stored in rows.  `undef` models JavaScript
`undefined` (a destructured property that is absent). -/
inductive Val where
  | null
  | undef
  | str (s : String)
  | num (n : Int)
  | boolean (b : Bool)
deriving DecidableEq, Repr

/-- A JavaScript object: an insertion-ordered association list from
property names to values (keys are distinct in any object the program
builds). -/
abbrev Obj := List (String × Val)

/-- Property read `o[k]`; `none` models an absent property. -/
def Obj.get : Obj → String → Option Val
  | [], _ => none
  | (k, v) :: rest, key => if k == key then some v else Obj.get rest key

/-- Property assignment `o[k] = v`: an existing key keeps its position
and is overwritten, a new key is appended (JavaScript property order). -/
def Obj.insert : Obj → String → Val → Obj
  | [], k, v => [(k, v)]
  | (k1, v1) :: rest, k, v =>
    if k1 == k then (k1, v) :: rest else (k1, v1) :: Obj.insert rest k v

/-- The object literal that starts from `base` and then assigns every
field of `fields` in order — the semantics of a spread such as the
source's new row `id` followed by `...data` in `update`. -/
def Obj.spread (base : Obj) (fields : Obj) : Obj :=
  fields.foldl (fun acc kv => Obj.insert acc kv.1 kv.2) base

/-- A table: an array of rows, in insertion order. -/
abbrev Table := List Obj

/-- The in-memory database `this.#database`: table name to row array. -/
abbrev Database := List (String × Table)

/-- Property read `db[table]` on the database object. -/
def dbGet : Database → String → Option Table
  | [], _ => none
  | (t1, rows) :: rest, t => if t1 == t then some rows else dbGet rest t

/-- Property assignment `db[table] = rows` on the database object. -/
def dbSet : Database → String → Table → Database
  | [], t, rows => [(t, rows)]
  | (t1, rows1) :: rest, t, rows =>
    if t1 == t then (t1, rows) :: rest else (t1, rows1) :: dbSet rest t rows

/-- `Array.prototype.findIndex`, with `none` for the -1 result. -/
def findIndex {α : Type} (p : α → Bool) : List α → Option Nat
  | [] => none
  | x :: xs => if p x then some 0 else (findIndex p xs).map (fun n => n + 1)

/-- Indexed write `arr[i] = a` (used at an index `findIndex` returned). -/
def setAt {α : Type} : List α → Nat → α → List α
  | [], _, _ => []
  | _ :: xs, 0, a => a :: xs
  | x :: xs, n + 1, a => x :: setAt xs n a

/-- `arr.splice(i, 1)`: remove the element at index `i`. -/
def removeAt {α : Type} : List α → Nat → List α
  | [], _ => []
  | _ :: xs, 0 => xs
  | x :: xs, n + 1 => x :: removeAt xs n

/-- The row predicate `row.id === id` used by `update` and `delete`;
a row without an `id` property reads as `undefined`. -/
def matchesId (id : Val) (row : Obj) : Bool :=
  (Obj.get row "id").getD Val.undef == id

namespace LocalFileDatabase

/-- Result of a mutating store operation: the boolean the method
returns, the database afterwards, and whether `#persist()` was called. -/
structure OpResult where
  ok : Bool
  db : Database
  persisted : Bool
deriving DecidableEq, Repr

/-- `select(table)`: the table's rows, or an empty array for a table
that does not exist (`?? []`). -/
def select (db : Database) (table : String) : Table :=
  (dbGet db table).getD []

/-- `insert(table, data)`: push onto an existing table's array, or
create the table as a one-row array; always persists. -/
def insert (db : Database) (table : String) (data : Obj) : Database :=
  match dbGet db table with
  | some rows => dbSet db table (rows ++ [data])
  | none => dbSet db table [data]

/-- `update(table, id, data)`: find the row by id; when absent (missing
table gives an undefined index, a miss gives -1) return false without
persisting; otherwise overwrite the row with the literal built from
`id` followed by the spread of `data`, persist, and return true. -/
def update (db : Database) (table : String) (id : Val) (data : Obj) : OpResult :=
  match dbGet db table with
  | none => ⟨false, db, false⟩
  | some rows =>
    match findIndex (matchesId id) rows with
    | none => ⟨false, db, false⟩
    | some i => ⟨true, dbSet db table (setAt rows i (Obj.spread [("id", id)] data)), true⟩

/-- `delete(table, id)`: find the row by id; when absent return false
without persisting; otherwise splice it out, persist, return true. -/
def delete (db : Database) (table : String) (id : Val) : OpResult :=
  match dbGet db table with
  | none => ⟨false, db, false⟩
  | some rows =>
    match findIndex (matchesId id) rows with
    | none => ⟨false, db, false⟩
    | some i => ⟨true, dbSet db table (removeAt rows i), true⟩

end LocalFileDatabase

/-- Characters of the class written `[a-zA-Z]` in `buildRoutePath`. -/
def isAsciiLetter (c : Char) : Bool :=
  (decide ('a' ≤ c) && decide (c ≤ 'z')) || (decide ('A' ≤ c) && decide (c ≤ 'Z'))

/-- Characters of the class written `[a-z0-9\-_]` in `buildRoutePath`
(the backslash-hyphen is a plain hyphen): lowercase letters, digits,
hyphen, underscore. -/
def isParamChar (c : Char) : Bool :=
  (decide ('a' ≤ c) && decide (c ≤ 'z')) || (decide ('0' ≤ c) && decide (c ≤ '9'))
    || c == '-' || c == '_'

/-- Split a character list into its longest prefix satisfying `p` and
the rest — the way a regex engine consumes a greedy character-class
repetition. -/
def spanP (p : Char → Bool) : List Char → List Char × List Char
  | [] => ([], [])
  | c :: cs =>
    if p c then ((spanP p cs).1.cons c, (spanP p cs).2) else ([], c :: cs)

/-- One piece of a compiled route pattern: a literal character, or a
named parameter standing for the group written `(?<name>[a-z0-9\-_]+)`. -/
inductive RoutePiece where
  | lit (c : Char)
  | param (name : String)
deriving DecidableEq, Repr

/-- Worker for `buildRoutePieces`; the fuel (initially the length of
the input, an upper bound on the number of steps) only makes the
recursion structural, every step consumes at least one character. -/
def buildGo : Nat → List Char → List RoutePiece
  | 0, _ => []
  | _, [] => []
  | fuel + 1, c :: cs =>
    if c == ':' then
      match spanP isAsciiLetter cs with
      | ([], _) => RoutePiece.lit c :: buildGo fuel cs
      | (a :: as, rest) => RoutePiece.param (String.mk (a :: as)) :: buildGo fuel rest
    else RoutePiece.lit c :: buildGo fuel cs

/-- `buildRoutePath(path)`: replace every occurrence of a colon
followed by a maximal nonempty letter run (the regex written
`:([a-zA-Z]+)` with the global flag) by a named greedy parameter
group; every other character stays a literal.  The resulting regex is
anchored at the start only (a caret is prefixed, no end anchor). -/
def buildRoutePieces (cs : List Char) : List RoutePiece :=
  buildGo cs.length cs

/-- Run the compiled route regex against a URL, anchored at the start
and unanchored at the end; on success, the named captures in order.
A parameter consumes the maximal run of its character class; for the
patterns the program registers no literal follows a parameter, so this
greedy match agrees with the regex engine (and the class excludes both
the slash and the question mark). -/
def matchPieces : List RoutePiece → List Char → Option (List (String × String))
  | [], _ => some []
  | RoutePiece.lit _ :: _, [] => none
  | RoutePiece.lit c :: ps, d :: ds => if c == d then matchPieces ps ds else none
  | RoutePiece.param n :: ps, ds =>
    match spanP isParamChar ds with
    | ([], _) => none
    | (r :: rs, rest) => (matchPieces ps rest).map (fun m => (n, String.mk (r :: rs)) :: m)

/-- Body of an HTTP response: `end()` with no argument, a stringified
row array, or a stringified message object. -/
inductive ResponseBody where
  | empty
  | rows (rs : Table)
  | message (s : String)
deriving DecidableEq, Repr

/-- An HTTP response: the status set by `writeHead` (200 when the
handler only calls `end`) and the body. -/
structure Response where
  status : Nat
  body : ResponseBody
deriving DecidableEq, Repr

/-- An incoming request after the `json` middleware ran: `body` is the
decoded JSON object, and `none` is the `null` that `json` assigns when
the raw body fails to parse. -/
structure Request where
  method : String
  url : String
  body : Option Obj
deriving Repr

/-- What the dispatcher hands a matched handler: the named captures
bound as `req.params`, the decoded body, and the value `randomUUID()`
returns during this request. -/
structure HandlerInput where
  params : List (String × String)
  body : Option Obj
  freshId : String
deriving Repr

/-- A handler either finishes with a response and a database state, or
throws (`Except.error`), as destructuring a property of `null` does. -/
abbrev HandlerResult := Except String (Response × Database)

/-- First-match read on `req.params` (a JavaScript object, so keys are
distinct); `none` models an absent property, read as `undefined`. -/
def lookupParam : List (String × String) → String → Option String
  | [], _ => none
  | (k, v) :: rest, key => if k == key then some v else lookupParam rest key

/-- The `id` a handler destructures from `req.params`, as the value
`update`/`delete` compare row ids against. -/
def paramId (ps : List (String × String)) : Val :=
  match lookupParam ps "id" with
  | some s => Val.str s
  | none => Val.undef

/-- GET /tasks: respond 200 (default status) with all rows of the
tasks table. -/
def getTasksHandler (_ : HandlerInput) (db : Database) : HandlerResult :=
  Except.ok (⟨200, ResponseBody.rows (LocalFileDatabase.select db "tasks")⟩, db)

/-- The row POST /tasks builds: a fresh id and the `description`
destructured from the body (which is `undefined` when the key is
absent). -/
def newTaskRow (freshId : String) (body : Obj) : Obj :=
  [("id", Val.str freshId), ("description", (Obj.get body "description").getD Val.undef)]

/-- POST /tasks: destructure `description` from the body (throwing
when the body is `null`), insert the new row, respond 201 empty. -/
def postTasksHandler (input : HandlerInput) (db : Database) : HandlerResult :=
  match input.body with
  | none => Except.error "TypeError: cannot destructure a property of null"
  | some b =>
    Except.ok (⟨201, ResponseBody.empty⟩,
      LocalFileDatabase.insert db "tasks" (newTaskRow input.freshId b))

/-- PUT /tasks/:id: destructure `description` from the body (throwing
when the body is `null`), call `update`; 404 with a message when it
returns false, else 204 empty. -/
def putTaskHandler (input : HandlerInput) (db : Database) : HandlerResult :=
  match input.body with
  | none => Except.error "TypeError: cannot destructure a property of null"
  | some b =>
    let data : Obj := [("description", (Obj.get b "description").getD Val.undef)]
    let r := LocalFileDatabase.update db "tasks" (paramId input.params) data
    if r.ok then Except.ok (⟨204, ResponseBody.empty⟩, r.db)
    else Except.ok (⟨404, ResponseBody.message "id not found"⟩, r.db)

/-- DELETE /tasks/:id: call `delete`; 404 with a message when it
returns false, else 204 empty.  The body is never read. -/
def deleteTaskHandler (input : HandlerInput) (db : Database) : HandlerResult :=
  let r := LocalFileDatabase.delete db "tasks" (paramId input.params)
  if r.ok then Except.ok (⟨204, ResponseBody.empty⟩, r.db)
  else Except.ok (⟨404, ResponseBody.message "id not found"⟩, r.db)

/-- A registered route: method, compiled pattern, handler. -/
structure Route where
  method : String
  pattern : List RoutePiece
  handler : HandlerInput → Database → HandlerResult

/-- The route table, in registration order. -/
def routes : List Route :=
  [⟨"GET", buildRoutePieces "/tasks".data, getTasksHandler⟩,
   ⟨"POST", buildRoutePieces "/tasks".data, postTasksHandler⟩,
   ⟨"PUT", buildRoutePieces "/tasks/:id".data, putTaskHandler⟩,
   ⟨"DELETE", buildRoutePieces "/tasks/:id".data, deleteTaskHandler⟩]

/-- The server callback: find the first route whose method equals the
request's and whose pattern tests true on the URL; bind its named
captures as `req.params` and run its handler; otherwise 404 empty. -/
def handleRequest (freshId : String) (req : Request) (db : Database) : HandlerResult :=
  match routes.find? (fun r => r.method == req.method && (matchPieces r.pattern req.url.data).isSome) with
  | some r =>
    r.handler ⟨(matchPieces r.pattern req.url.data).getD [], req.body, freshId⟩ db
  | none => Except.ok (⟨404, ResponseBody.empty⟩, db)

/-- The complete parameter object the dispatcher extracts for a
request, `none` when no route matches. -/
def dispatchParams (method url : String) : Option (List (String × String)) :=
  (routes.find? (fun r => r.method == method && (matchPieces r.pattern url.data).isSome)).map
    (fun r => (matchPieces r.pattern url.data).getD [])

/-- Modelled from the spec: substring containment over strings, used
to state the search semantics the spec ascribes to GET /tasks. -/
def containsSub (hay needle : String) : Bool :=
  (List.range (hay.data.length + 1)).any (fun i => needle.data.isPrefixOf (hay.data.drop i))

/-- Modelled from the spec: a row matches a search term when its title
or its description contains the term as a substring (OR across the two
fields). -/
def specMatchesSearch (term : String) (row : Obj) : Bool :=
  (match Obj.get row "title" with
   | some (Val.str s) => containsSub s term
   | _ => false) ||
  (match Obj.get row "description" with
   | some (Val.str s) => containsSub s term
   | _ => false)

/-- Split a character list at every occurrence of `sep`. -/
def splitOnChar (sep : Char) : List Char → List (List Char)
  | [] => [[]]
  | c :: cs =>
    if c == sep then [] :: splitOnChar sep cs
    else
      match splitOnChar sep cs with
      | [] => [[c]]
      | piece :: more => (c :: piece) :: more

/-- Last-occurrence-wins assignment into a string-to-string mapping. -/
def setParam : List (String × String) → String → String → List (String × String)
  | [], k, v => [(k, v)]
  | (k1, v1) :: rest, k, v =>
    if k1 == k then (k1, v) :: rest else (k1, v1) :: setParam rest k v

/-- Modelled from the spec: the raw query string of a URL is what
follows the first question mark (empty when there is none). -/
def specRawQuery (url : String) : List Char :=
  match url.data.dropWhile (fun c => !(c == '?')) with
  | [] => []
  | _ :: rest => rest

/-- Modelled from the spec: parseQuery splits the raw query on the
ampersand and then on the equals sign; the last occurrence of a
duplicate key wins; an empty or absent query yields an empty mapping. -/
def specParseQuery (q : List Char) : List (String × String) :=
  (splitOnChar '&' q).foldl (fun acc piece =>
    match splitOnChar '=' piece with
    | [] => acc
    | [k] => if k == ([] : List Char) then acc else setParam acc (String.mk k) ""
    | k :: v :: _ => setParam acc (String.mk k) (String.mk v)) []

/-- Modelled from the spec: the query mapping the spec says the router
captures separately under the name query. -/
def specQueryParams (url : String) : List (String × String) :=
  specParseQuery (specRawQuery url)

theorem Obj.get_insert_self (o : Obj) (k : String) (v : Val) :
    Obj.get (Obj.insert o k v) k = some v := by
  induction o with
  | nil => simp [Obj.insert, Obj.get]
  | cons kv rest ih =>
    obtain ⟨k1, v1⟩ := kv
    cases hbeq : k1 == k with
    | true => simp [Obj.insert, Obj.get, hbeq]
    | false => simp [Obj.insert, Obj.get, hbeq, ih]

theorem Obj.get_insert_ne (o : Obj) (k key : String) (v : Val) (h : k ≠ key) :
    Obj.get (Obj.insert o k v) key = Obj.get o key := by
  induction o with
  | nil => simp [Obj.insert, Obj.get, h]
  | cons kv rest ih =>
    obtain ⟨k1, v1⟩ := kv
    cases hbeq : k1 == k with
    | true =>
      have : k1 ≠ key := by rw [eq_of_beq hbeq]; exact h
      simp [Obj.insert, Obj.get, hbeq, this]
    | false => simp [Obj.insert, Obj.get, hbeq, ih]

theorem Obj.get_eq_none_of_keys_ne (o : Obj) (k : String)
    (h : ∀ kv ∈ o, kv.1 ≠ k) : Obj.get o k = none := by
  induction o with
  | nil => rfl
  | cons kv rest ih =>
    obtain ⟨k1, v1⟩ := kv
    have h1 : k1 ≠ k := h (k1, v1) (by simp)
    simp [Obj.get, h1]
    exact ih (fun kv hm => h kv (by simp [hm]))

theorem Obj.get_spread_none (base fields : Obj) (k : String)
    (h : Obj.get fields k = none) :
    Obj.get (Obj.spread base fields) k = Obj.get base k := by
  induction fields generalizing base with
  | nil => rfl
  | cons kv rest ih =>
    obtain ⟨k1, v1⟩ := kv
    have hstep : Obj.spread base ((k1, v1) :: rest) = Obj.spread (Obj.insert base k1 v1) rest := rfl
    cases hbeq : k1 == k with
    | true => simp [Obj.get, hbeq] at h
    | false =>
      rw [Obj.get, hbeq] at h
      simp only [Bool.false_eq_true, if_false] at h
      rw [hstep, ih _ h, Obj.get_insert_ne _ _ _ _ (ne_of_beq_false hbeq)]

theorem Obj.get_spread_some (base fields : Obj) (k : String) (v : Val)
    (hnd : (fields.map Prod.fst).Nodup) (h : Obj.get fields k = some v) :
    Obj.get (Obj.spread base fields) k = some v := by
  induction fields generalizing base with
  | nil => simp [Obj.get] at h
  | cons kv rest ih =>
    obtain ⟨k1, v1⟩ := kv
    simp only [List.map_cons, List.nodup_cons] at hnd
    obtain ⟨hk1, hndr⟩ := hnd
    have hstep : Obj.spread base ((k1, v1) :: rest) = Obj.spread (Obj.insert base k1 v1) rest := rfl
    cases hbeq : k1 == k with
    | true =>
      rw [Obj.get, hbeq] at h
      simp only [if_true] at h
      have hk1k : k1 = k := eq_of_beq hbeq
      have hnone : Obj.get rest k = none := by
        refine Obj.get_eq_none_of_keys_ne rest k (fun kv hm he => hk1 ?_)
        rw [hk1k, ← he]
        exact List.mem_map_of_mem Prod.fst hm
      rw [hstep, Obj.get_spread_none _ _ _ hnone, ← hk1k, Obj.get_insert_self]
      exact h
    | false =>
      rw [Obj.get, hbeq] at h
      simp only [Bool.false_eq_true, if_false] at h
      rw [hstep]
      exact ih _ hndr h

theorem findIndex_eq_none {α : Type} (p : α → Bool) (l : List α)
    (h : ∀ x ∈ l, p x = false) : findIndex p l = none := by
  induction l with
  | nil => rfl
  | cons x xs ih =>
    have hx : p x = false := h x (by simp)
    simp [findIndex, hx]
    exact ih (fun y hm => h y (by simp [hm]))

theorem findIndex_append {α : Type} (p : α → Bool) (pre suf : List α) (r : α)
    (hpre : ∀ x ∈ pre, p x = false) (hr : p r = true) :
    findIndex p (pre ++ r :: suf) = some pre.length := by
  induction pre with
  | nil => simp [findIndex, hr]
  | cons x xs ih =>
    have hx : p x = false := hpre x (by simp)
    have ih2 := ih (fun y hm => hpre y (by simp [hm]))
    simp [findIndex, hx, ih2]

theorem removeAt_append {α : Type} (pre suf : List α) (r : α) :
    removeAt (pre ++ r :: suf) pre.length = pre ++ suf := by
  induction pre with
  | nil => rfl
  | cons x xs ih => simp [removeAt, ih]

theorem setAt_append {α : Type} (pre suf : List α) (r a : α) :
    setAt (pre ++ r :: suf) pre.length a = pre ++ a :: suf := by
  induction pre with
  | nil => rfl
  | cons x xs ih => simp [setAt, ih]

theorem dbGet_dbSet_self (db : Database) (t : String) (rows : Table) :
    dbGet (dbSet db t rows) t = some rows := by
  induction db with
  | nil => simp [dbSet, dbGet]
  | cons entry rest ih =>
    obtain ⟨t1, rs⟩ := entry
    cases hbeq : t1 == t with
    | true => simp [dbSet, dbGet, hbeq]
    | false => simp [dbSet, dbGet, hbeq, ih]

theorem spanP_eq_append (p : Char → Bool) (seg rest : List Char)
    (hseg : ∀ c ∈ seg, p c = true)
    (hrest : ∀ c, rest.head? = some c → p c = false) :
    spanP p (seg ++ rest) = (seg, rest) := by
  induction seg with
  | nil =>
    cases rest with
    | nil => rfl
    | cons c cs =>
      have hc := hrest c rfl
      simp [spanP, hc]
  | cons c cs ih =>
    have hc := hseg c (by simp)
    have ih2 := ih (fun x hx => hseg x (by simp [hx]))
    simp [spanP, hc, ih2]

theorem select_insert_eq (db : Database) (t : String) (r : Obj) :
    LocalFileDatabase.select (LocalFileDatabase.insert db t r) t =
      LocalFileDatabase.select db t ++ [r] := by
  cases hg : dbGet db t with
  | none => simp [LocalFileDatabase.insert, hg, LocalFileDatabase.select, dbGet_dbSet_self]
  | some rows => simp [LocalFileDatabase.insert, hg, LocalFileDatabase.select, dbGet_dbSet_self]

/-- C1 counterexample: updating the row with id a by the partial field
set containing only description drops the field extra that the update
does not name — the claimed shallow merge would have preserved it. -/
theorem update_drops_unnamed_field_cex :
    LocalFileDatabase.update
        [("tasks", [[("id", Val.str "a"), ("description", Val.str "d"), ("extra", Val.str "x")]])]
        "tasks" (Val.str "a") [("description", Val.str "e")] =
      ⟨true, [("tasks", [[("id", Val.str "a"), ("description", Val.str "e")]])], true⟩ ∧
    Obj.get [("id", Val.str "a"), ("description", Val.str "e")] "extra" = none :=
  ⟨rfl, rfl⟩

/-- C1 (amended): a successful update replaces the whole row with the
literal built from the locating id followed by the partial fields, and
returns true; every field of the existing row not named in the partial
fields (other than id) is dropped from the stored row, not preserved. -/
theorem update_replaces_row (db : Database) (t : String) (id : Val) (data : Obj)
    (rows : Table) (i : Nat)
    (hrows : dbGet db t = some rows) (hidx : findIndex (matchesId id) rows = some i) :
    LocalFileDatabase.update db t id data =
      ⟨true, dbSet db t (setAt rows i (Obj.spread [("id", id)] data)), true⟩ ∧
    ∀ k, k ≠ "id" → Obj.get data k = none →
      Obj.get (Obj.spread [("id", id)] data) k = none := by
  constructor
  · simp only [LocalFileDatabase.update, hrows, hidx]
  · intro k hk hnone
    rw [Obj.get_spread_none _ _ _ hnone]
    simp [Obj.get, Ne.symm hk]

/-- Witness for the amended C1 theorem at a concrete database. -/
theorem update_replaces_row_witness :
    LocalFileDatabase.update
        [("tasks", [[("id", Val.str "a"), ("description", Val.str "d"), ("extra", Val.str "x")]])]
        "tasks" (Val.str "a") [("description", Val.str "e")] =
      ⟨true, dbSet [("tasks", [[("id", Val.str "a"), ("description", Val.str "d"), ("extra", Val.str "x")]])]
        "tasks" (setAt [[("id", Val.str "a"), ("description", Val.str "d"), ("extra", Val.str "x")]] 0
          (Obj.spread [("id", Val.str "a")] [("description", Val.str "e")])), true⟩ ∧
    ∀ k, k ≠ "id" → Obj.get [("description", Val.str "e")] k = none →
      Obj.get (Obj.spread [("id", Val.str "a")] [("description", Val.str "e")]) k = none :=
  update_replaces_row _ "tasks" (Val.str "a") _ _ 0 rfl rfl

/-- C5 (confirmed): when the table is missing or no row carries the id,
update and delete return false, call no persistence, and leave the
database exactly unchanged. -/
theorem update_delete_not_found_noop (db : Database) (t : String) (id : Val) (data : Obj)
    (h : ∀ row ∈ LocalFileDatabase.select db t, matchesId id row = false) :
    LocalFileDatabase.update db t id data = ⟨false, db, false⟩ ∧
    LocalFileDatabase.delete db t id = ⟨false, db, false⟩ := by
  cases hg : dbGet db t with
  | none =>
    constructor
    · simp only [LocalFileDatabase.update, hg]
    · simp only [LocalFileDatabase.delete, hg]
  | some rows =>
    have hsel : LocalFileDatabase.select db t = rows := by
      simp [LocalFileDatabase.select, hg]
    have hrows : ∀ row ∈ rows, matchesId id row = false := by
      intro row hm
      exact h row (by rw [hsel]; exact hm)
    have hfi : findIndex (matchesId id) rows = none := findIndex_eq_none _ _ hrows
    constructor
    · simp only [LocalFileDatabase.update, hg, hfi]
    · simp only [LocalFileDatabase.delete, hg, hfi]

/-- Witness for the C5 theorem at a concrete database and absent id. -/
theorem update_delete_not_found_noop_witness :
    LocalFileDatabase.update [("tasks", [[("id", Val.str "a")]])] "tasks" (Val.str "z") [] =
      ⟨false, [("tasks", [[("id", Val.str "a")]])], false⟩ ∧
    LocalFileDatabase.delete [("tasks", [[("id", Val.str "a")]])] "tasks" (Val.str "z") =
      ⟨false, [("tasks", [[("id", Val.str "a")]])], false⟩ :=
  update_delete_not_found_noop _ _ _ _ (by decide)

/-- C8 (confirmed): select returns a never-created table as the empty
sequence rather than an error, and insert appends at the end, so select
lists rows in insertion order. -/
theorem select_insertion_order (db : Database) (t : String) (r : Obj) :
    (dbGet db t = none → LocalFileDatabase.select db t = []) ∧
    LocalFileDatabase.select (LocalFileDatabase.insert db t r) t =
      LocalFileDatabase.select db t ++ [r] := by
  constructor
  · intro h
    simp [LocalFileDatabase.select, h]
  · exact select_insert_eq db t r

/-- Witness for the C8 theorem: the unknown-table hypothesis holds of
the empty database. -/
theorem select_insertion_order_witness :
    LocalFileDatabase.select [] "tasks" = [] ∧
    LocalFileDatabase.select (LocalFileDatabase.insert [] "tasks" [("id", Val.str "a")]) "tasks" =
      LocalFileDatabase.select [] "tasks" ++ [[("id", Val.str "a")]] :=
  ⟨(select_insertion_order [] "tasks" [("id", Val.str "a")]).1 rfl,
   (select_insertion_order [] "tasks" [("id", Val.str "a")]).2⟩

/-- C9 (confirmed): when the partial field set itself contains an id
key, a successful update stores a row whose id is the one from the
partial fields — the spread overrides the id used to locate the row. -/
theorem update_id_override (db : Database) (t : String) (id : Val) (data : Obj)
    (rows : Table) (i : Nat) (v : Val)
    (hrows : dbGet db t = some rows) (hidx : findIndex (matchesId id) rows = some i)
    (hnd : (data.map Prod.fst).Nodup) (hid : Obj.get data "id" = some v) :
    LocalFileDatabase.update db t id data =
      ⟨true, dbSet db t (setAt rows i (Obj.spread [("id", id)] data)), true⟩ ∧
    Obj.get (Obj.spread [("id", id)] data) "id" = some v := by
  constructor
  · simp only [LocalFileDatabase.update, hrows, hidx]
  · exact Obj.get_spread_some _ _ _ _ hnd hid

/-- Witness for the C9 theorem: updating row a with fields that carry
id b stores a row whose id is b. -/
theorem update_id_override_witness :
    LocalFileDatabase.update [("tasks", [[("id", Val.str "a")]])] "tasks" (Val.str "a")
        [("id", Val.str "b"), ("description", Val.str "e")] =
      ⟨true, dbSet [("tasks", [[("id", Val.str "a")]])] "tasks"
        (setAt [[("id", Val.str "a")]] 0
          (Obj.spread [("id", Val.str "a")] [("id", Val.str "b"), ("description", Val.str "e")])), true⟩ ∧
    Obj.get (Obj.spread [("id", Val.str "a")] [("id", Val.str "b"), ("description", Val.str "e")]) "id" =
      some (Val.str "b") :=
  update_id_override _ "tasks" (Val.str "a") _ _ 0 (Val.str "b") rfl rfl (by decide) rfl

/-- C10 (confirmed): delete removes exactly the first row in insertion
order whose id matches and keeps every other row in place, and update
rewrites the matched row in place; both preserve the relative order of
the remaining rows. -/
theorem delete_update_preserve_order (db : Database) (t : String) (id : Val) (data : Obj)
    (pre suf : Table) (r : Obj)
    (hrows : dbGet db t = some (pre ++ r :: suf))
    (hpre : ∀ x ∈ pre, matchesId id x = false)
    (hr : matchesId id r = true) :
    LocalFileDatabase.delete db t id = ⟨true, dbSet db t (pre ++ suf), true⟩ ∧
    LocalFileDatabase.update db t id data =
      ⟨true, dbSet db t (pre ++ Obj.spread [("id", id)] data :: suf), true⟩ := by
  have hfi := findIndex_append (matchesId id) pre suf r hpre hr
  constructor
  · simp only [LocalFileDatabase.delete, hrows, hfi, removeAt_append]
  · simp only [LocalFileDatabase.update, hrows, hfi, setAt_append]

/-- Witness for the C10 theorem: of two rows with id a, only the first
is removed and the following rows keep their order. -/
theorem delete_update_preserve_order_witness :
    LocalFileDatabase.delete
        [("tasks", [[("id", Val.str "b")], [("id", Val.str "a")],
                    [("id", Val.str "a"), ("extra", Val.str "y")]])] "tasks" (Val.str "a") =
      ⟨true, dbSet [("tasks", [[("id", Val.str "b")], [("id", Val.str "a")],
                    [("id", Val.str "a"), ("extra", Val.str "y")]])] "tasks"
        ([[("id", Val.str "b")]] ++ [[("id", Val.str "a"), ("extra", Val.str "y")]]), true⟩ ∧
    LocalFileDatabase.update
        [("tasks", [[("id", Val.str "b")], [("id", Val.str "a")],
                    [("id", Val.str "a"), ("extra", Val.str "y")]])] "tasks" (Val.str "a") [] =
      ⟨true, dbSet [("tasks", [[("id", Val.str "b")], [("id", Val.str "a")],
                    [("id", Val.str "a"), ("extra", Val.str "y")]])] "tasks"
        ([[("id", Val.str "b")]] ++ Obj.spread [("id", Val.str "a")] [] ::
          [[("id", Val.str "a"), ("extra", Val.str "y")]]), true⟩ :=
  delete_update_preserve_order _ "tasks" (Val.str "a") []
    [[("id", Val.str "b")]] [[("id", Val.str "a"), ("extra", Val.str "y")]] [("id", Val.str "a")]
    rfl (by decide) (by decide)

/-- C2 counterexample: a POST /tasks request whose body carries title
and description responds 201 with an empty body, but the row it stores
has only id and description — no title, created_at, updated_at or
completed_at field is present (so completed_at is not a null-valued
timestamp field either, it is absent). -/
theorem post_missing_task_fields_cex :
    handleRequest "id-1"
        ⟨"POST", "/tasks", some [("title", Val.str "Buy milk"), ("description", Val.str "2")]⟩ [] =
      Except.ok (⟨201, ResponseBody.empty⟩,
        [("tasks", [[("id", Val.str "id-1"), ("description", Val.str "2")]])]) ∧
    Obj.get [("id", Val.str "id-1"), ("description", Val.str "2")] "title" = none ∧
    Obj.get [("id", Val.str "id-1"), ("description", Val.str "2")] "created_at" = none ∧
    Obj.get [("id", Val.str "id-1"), ("description", Val.str "2")] "updated_at" = none ∧
    Obj.get [("id", Val.str "id-1"), ("description", Val.str "2")] "completed_at" = none :=
  ⟨rfl, rfl, rfl, rfl, rfl⟩

/-- C2 (amended): every POST /tasks request with a decodable body
responds 201 with an empty body and appends exactly one row to the
tasks table; that row carries only the freshly generated id and the
description taken from the body — no title, created_at, updated_at or
completed_at field. -/
theorem post_inserts_id_description_only (fid : String) (b : Obj) (db : Database) :
    handleRequest fid ⟨"POST", "/tasks", some b⟩ db =
      Except.ok (⟨201, ResponseBody.empty⟩,
        LocalFileDatabase.insert db "tasks" (newTaskRow fid b)) ∧
    LocalFileDatabase.select (LocalFileDatabase.insert db "tasks" (newTaskRow fid b)) "tasks" =
      LocalFileDatabase.select db "tasks" ++ [newTaskRow fid b] ∧
    Obj.get (newTaskRow fid b) "id" = some (Val.str fid) ∧
    Obj.get (newTaskRow fid b) "title" = none ∧
    Obj.get (newTaskRow fid b) "created_at" = none ∧
    Obj.get (newTaskRow fid b) "updated_at" = none ∧
    Obj.get (newTaskRow fid b) "completed_at" = none :=
  ⟨rfl, select_insert_eq db "tasks" (newTaskRow fid b), rfl, rfl, rfl, rfl, rfl⟩

/-- C3 counterexample: with two stored tasks of which only one contains
milk in its description, GET /tasks with the query search=milk responds
200 with BOTH rows — the row whose title and description do not contain
the search substring is returned too, so the response is not exactly
the matching rows. -/
theorem get_search_not_filtered_cex :
    handleRequest "u" ⟨"GET", "/tasks?search=milk", none⟩
        [("tasks", [[("id", Val.str "t1"), ("description", Val.str "buy milk")],
                    [("id", Val.str "t2"), ("description", Val.str "walk dog")]])] =
      Except.ok (⟨200, ResponseBody.rows
          [[("id", Val.str "t1"), ("description", Val.str "buy milk")],
           [("id", Val.str "t2"), ("description", Val.str "walk dog")]]⟩,
        [("tasks", [[("id", Val.str "t1"), ("description", Val.str "buy milk")],
                    [("id", Val.str "t2"), ("description", Val.str "walk dog")]])]) ∧
    specMatchesSearch "milk" [("id", Val.str "t2"), ("description", Val.str "walk dog")] = false :=
  ⟨rfl, rfl⟩

/-- C3 (amended): every GET request whose URL starts with /tasks —
with or without a search query parameter, which the handler never
reads — responds 200 with ALL rows of the tasks table, unfiltered. -/
theorem get_tasks_returns_all_rows (fid : String) (q : List Char) (b : Option Obj) (db : Database) :
    handleRequest fid ⟨"GET", String.mk ("/tasks".data ++ q), b⟩ db =
      Except.ok (⟨200, ResponseBody.rows (LocalFileDatabase.select db "tasks")⟩, db) := rfl

/-- C4 counterexample: PATCH /tasks/abc/complete on a database that
does contain a task with id abc responds 404 with an empty body and
leaves the database unchanged — not 204, and nothing is toggled. -/
theorem patch_complete_404_cex :
    handleRequest "u" ⟨"PATCH", "/tasks/abc/complete", none⟩
        [("tasks", [[("id", Val.str "abc")]])] =
      Except.ok (⟨404, ResponseBody.empty⟩, [("tasks", [[("id", Val.str "abc")]])]) := rfl

/-- C4 (amended): no PATCH route is registered, so every PATCH request
— /tasks/:id/complete on an existing id included — responds 404 with
an empty body and leaves the database unchanged; no completed_at
toggle exists anywhere in the program. -/
theorem patch_always_404 (fid : String) (req : Request) (db : Database)
    (h : req.method = "PATCH") :
    handleRequest fid req db = Except.ok (⟨404, ResponseBody.empty⟩, db) := by
  obtain ⟨m, url, b⟩ := req
  simp only at h
  subst h
  simp [handleRequest, routes, List.find?]

/-- Witness for the amended C4 theorem at a concrete PATCH request. -/
theorem patch_always_404_witness :
    handleRequest "u" ⟨"PATCH", "/tasks/xyz/complete", none⟩ [] =
      Except.ok (⟨404, ResponseBody.empty⟩, []) :=
  patch_always_404 "u" ⟨"PATCH", "/tasks/xyz/complete", none⟩ [] rfl

/-- C6 counterexample: a POST /tasks request whose body failed to
decode (the dispatcher set it to null) does not run to a response: the
handler throws while destructuring description from the null body. -/
theorem post_null_body_throws_cex :
    handleRequest "u" ⟨"POST", "/tasks", none⟩ [] =
      Except.error "TypeError: cannot destructure a property of null" := rfl

/-- Every route whose method is GET or DELETE has a handler that
always finishes with a response; the only registered GET and DELETE
handlers never read the request body. -/
theorem route_handlers_total (r : Route) (hr : r ∈ routes)
    (hm : r.method = "GET" ∨ r.method = "DELETE") (input : HandlerInput) (db : Database) :
    ∃ out, r.handler input db = Except.ok out := by
  simp only [routes, List.mem_cons, List.not_mem_nil, or_false] at hr
  rcases hr with h | h | h | h
  · subst h; exact ⟨_, rfl⟩
  · subst h; simp at hm
  · subst h; simp at hm
  · subst h
    cases hok : (LocalFileDatabase.delete db "tasks" (paramId input.params)).ok with
    | true =>
      exact ⟨(⟨204, ResponseBody.empty⟩, (LocalFileDatabase.delete db "tasks" (paramId input.params)).db),
        by simp [deleteTaskHandler, hok]⟩
    | false =>
      exact ⟨(⟨404, ResponseBody.message "id not found"⟩,
          (LocalFileDatabase.delete db "tasks" (paramId input.params)).db),
        by simp [deleteTaskHandler, hok]⟩

/-- C6 (amended): the dispatcher marks an undecodable body as null and
a request matching no route gets a terminal 404, and every GET or
DELETE request still receives a terminal response with a null body;
but the POST /tasks and PUT /tasks/:id handlers destructure the null
body and throw, so those requests produce no response at all. -/
theorem null_body_dispatch (fid : String) (req : Request) (db : Database)
    (hbody : req.body = none) :
    ((req.method = "GET" ∨ req.method = "DELETE") →
      ∃ out, handleRequest fid req db = Except.ok out) ∧
    (req.method = "POST" → req.url = "/tasks" →
      ∃ e, handleRequest fid req db = Except.error e) ∧
    (req.method = "PUT" → req.url = "/tasks/abc" →
      ∃ e, handleRequest fid req db = Except.error e) := by
  obtain ⟨m, url, b⟩ := req
  simp only at hbody
  subst hbody
  refine ⟨?_, ?_, ?_⟩
  · intro hm
    cases hf : routes.find? (fun r => r.method == m && (matchPieces r.pattern url.data).isSome) with
    | none =>
      refine ⟨(⟨404, ResponseBody.empty⟩, db), ?_⟩
      simp only [handleRequest, hf]
    | some r =>
      have hmem := List.mem_of_find?_eq_some hf
      have hp := List.find?_some hf
      have hmeth : r.method = m := by
        have h1 := (Bool.and_eq_true _ _).mp hp |>.1
        exact eq_of_beq h1
      obtain ⟨out, hout⟩ := route_handlers_total r hmem (by rw [hmeth]; exact hm) _ db
      refine ⟨out, ?_⟩
      simp only [handleRequest, hf]
      exact hout
  · intro h1 h2
    subst h1; subst h2
    exact ⟨_, rfl⟩
  · intro h1 h2
    subst h1; subst h2
    exact ⟨_, rfl⟩

/-- Witness for the amended C6 theorem: a concrete GET with a null
body answers, a concrete POST with a null body throws. -/
theorem null_body_dispatch_witness :
    (∃ out, handleRequest "u" ⟨"GET", "/tasks", none⟩ [] = Except.ok out) ∧
    (∃ e, handleRequest "u" ⟨"POST", "/tasks", none⟩ [] = Except.error e) :=
  ⟨(null_body_dispatch "u" ⟨"GET", "/tasks", none⟩ [] rfl).1 (Or.inl rfl),
   (null_body_dispatch "u" ⟨"POST", "/tasks", none⟩ [] rfl).2.1 rfl rfl⟩

/-- C7 counterexample: for GET /tasks?search=milk the dispatcher's
complete extraction is the empty parameter mapping — no binding at
all, in particular no query capture — while the query mapping the
spec says is captured separately would be search to milk. -/
theorem query_not_captured_cex :
    dispatchParams "GET" "/tasks?search=milk" = some [] ∧
    specQueryParams "/tasks?search=milk" = [("search", "milk")] :=
  ⟨rfl, rfl⟩

/-- C7 (amended): in a registered pattern a named parameter matches a
maximal nonempty run of lowercase letters, digits, hyphen or
underscore — at most one path segment, since the class excludes the
slash — and binds the matched text under its name; a trailing query
string never contributes to the path match or the path params (the
pattern is anchored at the start only and the class excludes the
question mark), but it is not captured under query or anywhere else:
/tasks/abc-123/complete binds id to abc-123, and /tasks?search=milk
matches GET /tasks with the empty parameter mapping. -/
theorem route_params_query_behavior :
    (∀ seg rest : List Char, seg ≠ [] → (∀ c ∈ seg, isParamChar c = true) →
      (∀ c, rest.head? = some c → isParamChar c = false) →
      matchPieces (buildRoutePieces "/tasks/:id".data) ("/tasks/".data ++ (seg ++ rest)) =
        some [("id", String.mk seg)]) ∧
    (∀ q : List Char, matchPieces (buildRoutePieces "/tasks".data) ("/tasks".data ++ q) = some []) ∧
    matchPieces (buildRoutePieces "/tasks/:id".data) "/tasks/abc-123/complete".data =
      some [("id", "abc-123")] ∧
    dispatchParams "GET" "/tasks?search=milk" = some [] := by
  refine ⟨?_, fun q => rfl, rfl, rfl⟩
  intro seg rest hne hseg hrest
  cases seg with
  | nil => exact absurd rfl hne
  | cons s ss =>
    have hspan := spanP_eq_append isParamChar (s :: ss) rest hseg hrest
    show matchPieces [RoutePiece.param "id"] ((s :: ss) ++ rest) = some [("id", String.mk (s :: ss))]
    simp only [matchPieces]
    rw [hspan]
    rfl

/-- Witness for the amended C7 theorem: the one-character parameter x
followed by a slash is bound as id. -/
theorem route_params_query_behavior_witness :
    matchPieces (buildRoutePieces "/tasks/:id".data) ("/tasks/".data ++ (['x'] ++ ['/', 'y'])) =
      some [("id", String.mk ['x'])] :=
  route_params_query_behavior.1 ['x'] ['/', 'y'] (by decide) (by decide)
    (fun c hc => by
      have h1 : ('/' : Char) = c := Option.some.inj hc
      rw [← h1]
      decide)
